import Mathlib

/-!
Shallow embedding of the pointer-proximity text engine (the
VariableProximity component) and the radial hover-accent geometry (the
PillNav layout pass) from src/src/App.jsx, together with the lifecycle
model of the useAnimationFrame and useMousePositionRef hooks.

JS strings are modelled as Lean strings over their character lists, JS
numbers appearing in exact arithmetic as rationals, and the JS special
values Infinity / -Infinity / NaN (which the pill layout can produce)
by the extended type JNum.  parseFloat results are Option rationals,
none standing for NaN.
-/

unseal Rat.add Rat.mul Rat.inv Rat.sub

/-- Character with code point 39, the single-quote character, written by
code point so that string literals in this file stay plain. -/
def squoteChar : Char := Char.ofNat 39

/-- Character with code point 34, the double-quote character. -/
def dquoteChar : Char := Char.ofNat 34

/-- String consisting of the single-quote character alone. -/
def sQuote : String := squoteChar.toString

/-- String consisting of the double-quote character alone. -/
def dQuote : String := dquoteChar.toString

/-- JS String.prototype.split with a one-character separator, on the
character list: every occurrence of the separator ends the current
chunk, so runs of separators yield empty chunks and the result is
always nonempty. -/
def jsSplitChar (sep : Char) : List Char → List (List Char)
  | [] => [[]]
  | c :: cs =>
    if c == sep then [] :: jsSplitChar sep cs
    else (jsSplitChar sep cs).modifyHead (fun w => c :: w)

/-- JS s.split(sep) for a one-character separator, as strings. -/
def jsSplit (sep : Char) (s : String) : List String :=
  (jsSplitChar sep s.data).map String.mk

/-- JS String.prototype.trim: strip whitespace from both ends. -/
def jsTrim (s : String) : String :=
  String.mk (((s.data.dropWhile Char.isWhitespace).reverse.dropWhile
    Char.isWhitespace).reverse)

/-- The replace of all single and double quote characters by the empty
string, from name.replace in the parseSettings closure of App.jsx. -/
def stripQuotes (s : String) : String :=
  String.mk (s.data.filter (fun c => !(c == squoteChar) && !(c == dquoteChar)))

/-- Value of a digit run, most significant first. -/
def digitsVal (ds : List Char) : ℚ :=
  ds.foldl (fun a c => 10 * a + ((c.toNat - 48 : ℕ) : ℚ)) 0

/-- Model of JS parseFloat on the decimal forms the engine meets:
optional leading whitespace, optional sign, integer digits and an
optional fraction part.  none models the NaN result on inputs with no
leading numeric prefix. -/
def jsParseFloat (s : String) : Option ℚ :=
  let cs := s.data.dropWhile Char.isWhitespace
  let sgn : ℚ := if cs.headD ' ' == '-' then -1 else 1
  let cs1 := if cs.headD ' ' == '-' || cs.headD ' ' == '+' then cs.tail else cs
  let intPart := cs1.takeWhile Char.isDigit
  let rest := cs1.drop intPart.length
  let fracPart :=
    if rest.headD ' ' == '.' then rest.tail.takeWhile Char.isDigit else []
  if intPart.isEmpty && fracPart.isEmpty then none
  else some (sgn * (digitsVal intPart + digitsVal fracPart / 10 ^ fracPart.length))

/-- JS Map.prototype.set on an insertion-ordered association list:
overwrite in place when the key is present, append otherwise. -/
def jsMapSet (m : List (String × Option ℚ)) (k : String) (v : Option ℚ) :
    List (String × Option ℚ) :=
  if m.any (fun p => p.1 == k) then
    m.map (fun p => if p.1 == k then (k, v) else p)
  else m ++ [(k, v)]

/-- JS new Map(pairs): set every pair in order into an empty map. -/
def jsMapOfList (pairs : List (String × Option ℚ)) : List (String × Option ℚ) :=
  pairs.foldl (fun m p => jsMapSet m p.1 p.2) []

/-- JS Map.prototype.get: none when the key is absent, some of the
stored value (itself an Option, none standing for a stored NaN) when
present. -/
def jsMapGet (m : List (String × Option ℚ)) (k : String) : Option (Option ℚ) :=
  (m.find? (fun p => p.1 == k)).map Prod.snd

/-- One comma-separated entry of an axis spec: split on single spaces,
take the first chunk as the (quote-stripped) axis name and parseFloat
of the second chunk as the value; a missing second chunk is
parseFloat(undefined), i.e. NaN. -/
def parsePair (s : String) : String × Option ℚ :=
  let parts := jsSplit ' ' s
  (stripQuotes (parts.headD ""),
    match parts[1]? with
    | none => none
    | some v => jsParseFloat v)

/-- The raw (name, value) pairs of a spec string in order, before Map
construction: split on commas, trim each entry, parse each entry. -/
def specPairs (settingsStr : String) : List (String × Option ℚ) :=
  ((jsSplit ',' settingsStr).map jsTrim).map parsePair

/-- The parseSettings closure of App.jsx: the JS Map built from the raw
pairs (duplicate names collapse, last value wins). -/
def parseSettings (settingsStr : String) : List (String × Option ℚ) :=
  jsMapOfList (specPairs settingsStr)

/-- Axis names (in order, duplicates kept) appearing in a spec string. -/
def specAxisNames (settingsStr : String) : List String :=
  (specPairs settingsStr).map Prod.fst

/-- One parsed variation axis of the proximity engine. -/
structure VariationAxis where
  axis : String
  fromValue : Option ℚ
  toValue : Option ℚ
deriving DecidableEq

/-- The parsedSettings useMemo of App.jsx: one entry per axis of the
from map, with the to value defaulting to the from value when the to
map lacks the axis. -/
def parsedSettings (fromSpec toSpec : String) : List VariationAxis :=
  (parseSettings fromSpec).map (fun p =>
    ⟨p.1, p.2, (jsMapGet (parseSettings toSpec) p.1).getD p.2⟩)

/-- The interpolation fromValue + (toValue - fromValue) * falloffValue,
with NaN (none) propagating as in JS arithmetic. -/
def interpAxis (a : VariationAxis) (falloffValue : ℚ) : Option ℚ :=
  match a.fromValue, a.toValue with
  | some f, some t => some (f + (t - f) * falloffValue)
  | _, _ => none

/-- JS number-to-string on the values the engine formats: an integer
prints without a decimal point.  Non-integral rationals print via the
Lean rational printer; no claim exercises that branch. -/
def jsNumToString (q : ℚ) : String :=
  if q.den = 1 then toString q.num else toString q

/-- Template-literal rendering of a value, with NaN printing as NaN. -/
def jsValueToString : Option ℚ → String
  | none => "NaN"
  | some q => jsNumToString q

/-- The newSettings construction of App.jsx: each axis renders as the
single-quoted axis name, a space and the interpolated value, joined
with comma-space. -/
def formatSettings (settings : List VariationAxis) (falloffValue : ℚ) : String :=
  String.intercalate ", "
    (settings.map (fun a =>
      sQuote ++ a.axis ++ sQuote ++ " " ++ jsValueToString (interpAxis a falloffValue)))

/-- The falloff modes of the proximity engine. -/
inductive Falloff
  | linear
  | exponential
  | gaussian
deriving DecidableEq

/-- The calculateFalloff closure of App.jsx, over the reals. -/
noncomputable def calculateFalloff (falloff : Falloff) (radius distance : ℝ) : ℝ :=
  let norm := min (max (1 - distance / radius) 0) 1
  match falloff with
  | .exponential => norm ^ 2
  | .gaussian => Real.exp (-((distance / (radius / 2)) ^ 2) / 2)
  | .linear => norm

/-- The calculateDistance closure of App.jsx: Euclidean distance. -/
noncomputable def calculateDistance (x1 y1 x2 y2 : ℝ) : ℝ :=
  Real.sqrt ((x2 - x1) ^ 2 + (y2 - y1) ^ 2)

/-- The per-letter body of the frame callback of App.jsx: at distance at
least radius the from spec is written back verbatim and interpolation
is skipped; otherwise the parsed settings are formatted at the computed
falloff weight.  The weight is passed as a rational argument here (the
source computes it as calculateFalloff of the distance); only the reset
branch depends on the distance. -/
noncomputable def letterFrameStyle (fromSpec toSpec : String)
    (radius distance : ℝ) (falloffValue : ℚ) : String :=
  if radius ≤ distance then fromSpec
  else formatSettings (parsedSettings fromSpec toSpec) falloffValue

/-- JS double arithmetic as met by the pill layout: exact rationals
extended with Infinity, -Infinity and NaN. -/
inductive JNum
  | nan
  | inf
  | ninf
  | fin (q : ℚ)
deriving DecidableEq

/-- JS negation on extended numbers. -/
def jneg : JNum → JNum
  | .nan => .nan
  | .inf => .ninf
  | .ninf => .inf
  | .fin q => .fin (-q)

/-- JS addition on extended numbers: NaN propagates, opposite
infinities give NaN. -/
def jadd : JNum → JNum → JNum
  | .nan, _ => .nan
  | _, .nan => .nan
  | .inf, .ninf => .nan
  | .ninf, .inf => .nan
  | .inf, _ => .inf
  | _, .inf => .inf
  | .ninf, _ => .ninf
  | _, .ninf => .ninf
  | .fin a, .fin b => .fin (a + b)

/-- JS subtraction, a + (-b). -/
def jsub (a b : JNum) : JNum := jadd a (jneg b)

/-- JS multiplication on extended numbers: NaN propagates, zero times
an infinity is NaN, otherwise signs multiply. -/
def jmul : JNum → JNum → JNum
  | .nan, _ => .nan
  | _, .nan => .nan
  | .inf, .inf => .inf
  | .ninf, .ninf => .inf
  | .inf, .ninf => .ninf
  | .ninf, .inf => .ninf
  | .inf, .fin b => if 0 < b then .inf else if b < 0 then .ninf else .nan
  | .fin a, .inf => if 0 < a then .inf else if a < 0 then .ninf else .nan
  | .ninf, .fin b => if 0 < b then .ninf else if b < 0 then .inf else .nan
  | .fin a, .ninf => if 0 < a then .ninf else if a < 0 then .inf else .nan
  | .fin a, .fin b => .fin (a * b)

/-- JS division on extended numbers: a finite positive value over
(positive) zero is Infinity, zero over zero is NaN, infinities over
infinities are NaN. -/
def jdiv : JNum → JNum → JNum
  | .nan, _ => .nan
  | _, .nan => .nan
  | .inf, .inf => .nan
  | .inf, .ninf => .nan
  | .ninf, .inf => .nan
  | .ninf, .ninf => .nan
  | .fin _, .inf => .fin 0
  | .fin _, .ninf => .fin 0
  | .inf, .fin b => if b < 0 then .ninf else .inf
  | .ninf, .fin b => if b < 0 then .inf else .ninf
  | .fin a, .fin b =>
    if b = 0 then (if 0 < a then .inf else if a < 0 then .ninf else .nan)
    else .fin (a / b)

/-- JS Math.max on two extended numbers: NaN propagates. -/
def jmax : JNum → JNum → JNum
  | .nan, _ => .nan
  | _, .nan => .nan
  | .inf, _ => .inf
  | _, .inf => .inf
  | .ninf, b => b
  | a, .ninf => a
  | .fin a, .fin b => .fin (max a b)

/-- JS Math.ceil on extended numbers. -/
def jceil : JNum → JNum
  | .nan => .nan
  | .inf => .inf
  | .ninf => .ninf
  | .fin q => .fin ((Int.ceil q : ℤ) : ℚ)

/-- JS Math.sqrt on extended numbers: negative arguments give NaN.  On
finite arguments it is Rat.sqrt, which agrees with the source exactly
on perfect squares — the only finite inputs any claim evaluates. -/
def jsqrt : JNum → JNum
  | .nan => .nan
  | .inf => .inf
  | .ninf => .nan
  | .fin q => if q < 0 then .nan else .fin (Rat.sqrt q)

instance : Add JNum := ⟨jadd⟩

instance : Sub JNum := ⟨jsub⟩

instance : Mul JNum := ⟨jmul⟩

instance : Div JNum := ⟨jdiv⟩

instance : Neg JNum := ⟨jneg⟩

instance : OfNat JNum n := ⟨JNum.fin (OfNat.ofNat n)⟩

/-- The four derived quantities of the PillNav hover circle. -/
structure PillGeom where
  R : JNum
  D : JNum
  delta : JNum
  originY : JNum
deriving DecidableEq

/-- The layout closure of PillNav in App.jsx, lines 675 to 678: radius
from the chord-height relation, rendered diameter with a 2px margin,
vertical offset of the circle bottom, and the transform origin. -/
def pillLayout (w h : JNum) : PillGeom :=
  let R := (w * w / 4 + h * h) / (2 * h)
  let D := jceil (2 * R) + 2
  let delta := jceil (R - jsqrt (jmax 0 (R * R - w * w / 4))) + 1
  let originY := D - delta
  ⟨R, D, delta, originY⟩

/-- One rendered node of the VariableProximity label markup: an indexed
animated glyph span, or the literal non-breaking-space separator span
emitted between words (which carries no index and no animation ref). -/
inductive Token
  | glyph (idx : ℕ) (c : Char)
  | separator
deriving DecidableEq

/-- Consecutively indexed glyph tokens of one word, starting at i. -/
def glyphTokens : ℕ → List Char → List Token
  | _, [] => []
  | i, c :: cs => Token.glyph i c :: glyphTokens (i + 1) cs

/-- The words.map rendering of App.jsx: each word contributes its
glyphs at the running letter index, and every word boundary except the
last contributes one separator span. -/
def renderWords : ℕ → List (List Char) → List Token
  | _, [] => []
  | i, [w] => glyphTokens i w
  | i, w :: w2 :: ws =>
    glyphTokens i w ++ Token.separator :: renderWords (i + w.length) (w2 :: ws)

/-- The full label rendering: label.split of a single space, then the
word markup with letter indices threaded left to right. -/
def renderLabel (label : List Char) : List Token :=
  renderWords 0 (jsSplitChar ' ' label)

/-- Predicate picking the animated glyph tokens. -/
def isGlyphTok : Token → Bool
  | .glyph _ _ => true
  | .separator => false

/-- Observable state of one VariableProximity instance: the handle of
the pending animation frame (none once cancelled), the counter feeding
fresh handles, whether the window pointer listeners are attached, the
latest pointer sample, and how many style writes the frame callback has
performed. -/
structure EngineState where
  pendingFrame : Option ℕ
  nextHandle : ℕ
  listenersOn : Bool
  mouseX : ℚ
  mouseY : ℚ
  styleWrites : ℕ
deriving DecidableEq

/-- Events delivered to an instance: the scheduler firing the pending
frame, pointer and touch moves, and the unmount cleanup.  The cleanup
of useAnimationFrame cancels the most recently scheduled handle (the
loop reassigns frameId on every tick, so the pending one), and the
cleanup of useMousePositionRef removes both window listeners. -/
inductive EngineEvent
  | frameFire
  | mouseMove (x y : ℚ)
  | touchMove (x y : ℚ)
  | unmount
deriving DecidableEq

/-- One event step.  A frame only fires while a scheduled handle is
pending; the callback performs its style writes and schedules the next
frame.  Pointer events only update the position ref while the
listeners are attached, and never write styles.  Unmount cancels the
pending frame and detaches the listeners. -/
def stepEngine (s : EngineState) : EngineEvent → EngineState
  | .frameFire =>
    match s.pendingFrame with
    | none => s
    | some _ =>
      { s with
        styleWrites := s.styleWrites + 1
        pendingFrame := some s.nextHandle
        nextHandle := s.nextHandle + 1 }
  | .mouseMove x y => if s.listenersOn then { s with mouseX := x, mouseY := y } else s
  | .touchMove x y => if s.listenersOn then { s with mouseX := x, mouseY := y } else s
  | .unmount => { s with pendingFrame := none, listenersOn := false }

/-- Delivery of a whole event list, in order. -/
def runEngine (s : EngineState) (es : List EngineEvent) : EngineState :=
  es.foldl stepEngine s

/-- The from spec exercised by the round-trip claims. -/
def wghtFrom : String := sQuote ++ "wght" ++ sQuote ++ " 400"

/-- The to spec exercised by the round-trip claims. -/
def wghtTo : String := sQuote ++ "wght" ++ sQuote ++ " 800"

/-- The from spec written with double quotes instead. -/
def wghtFromDq : String := dQuote ++ "wght" ++ dQuote ++ " 400"

/-- The from spec written without quotes. -/
def wghtFromBare : String := "wght 400"

/-- A two-axis from spec. -/
def twoAxisFrom : String :=
  sQuote ++ "wght" ++ sQuote ++ " 400, " ++ sQuote ++ "slnt" ++ sQuote ++ " 12"

/-- C1: whenever the Euclidean distance from the pointer sample to a
letter center is at least the radius, the frame step outputs the from
font-variation specification verbatim for that letter and performs no
interpolation (the result is independent of the to spec and of the
falloff weight). -/
theorem letterFrameStyle_reset (fromSpec toSpec : String) (radius : ℝ)
    (falloffValue : ℚ) (px py cx cy : ℝ)
    (h : radius ≤ calculateDistance px py cx cy) :
    letterFrameStyle fromSpec toSpec radius (calculateDistance px py cx cy)
      falloffValue = fromSpec := by
  simp only [letterFrameStyle]
  rw [if_pos h]

/-- Witness for C1: pointer at the origin, letter center at (3, 4),
radius 5, so the distance is exactly the radius. -/
theorem letterFrameStyle_reset_witness :
    (5 : ℝ) ≤ calculateDistance 0 0 3 4 ∧
      letterFrameStyle wghtFrom wghtTo 5 (calculateDistance 0 0 3 4) 0 =
        wghtFrom := by
  have hd : calculateDistance 0 0 3 4 = 5 := by
    simp only [calculateDistance]
    rw [show ((3 : ℝ) - 0) ^ 2 + ((4 : ℝ) - 0) ^ 2 = 5 ^ 2 by norm_num]
    exact Real.sqrt_sq (by norm_num)
  exact ⟨le_of_eq hd.symm,
    letterFrameStyle_reset wghtFrom wghtTo 5 0 0 0 3 4 (le_of_eq hd.symm)⟩

/-- C2: for a pill of width 100 and height 40 the hover-accent geometry
is exactly R = 205/4 = 51.25, D = ceil(2R) + 2 = 105, delta =
ceil(R - sqrt(R^2 - w^2/4)) + 1 = 41 (an exact integer), and
originY = D - delta = 64. -/
theorem pillLayout_100_40 :
    pillLayout (.fin 100) (.fin 40) =
      ⟨.fin (205 / 4), .fin 105, .fin 41, .fin (105 - 41)⟩ := by
  have hsqrt : Rat.sqrt (2025 / 16) = 45 / 4 := by
    rw [show (2025 / 16 : ℚ) = (45 / 4) * (45 / 4) by norm_num, Rat.sqrt_eq]
    norm_num
  have hR : (JNum.fin 100 * JNum.fin 100 / 4 + JNum.fin 40 * JNum.fin 40) /
      (2 * JNum.fin 40) = JNum.fin (205 / 4) := by decide
  have hmax : jmax 0 (JNum.fin (205 / 4) * JNum.fin (205 / 4) -
      JNum.fin 100 * JNum.fin 100 / 4) = JNum.fin (2025 / 16) := by decide
  have hs : jsqrt (JNum.fin (2025 / 16)) = JNum.fin (45 / 4) := by
    simp only [jsqrt]
    rw [if_neg (by norm_num : ¬(2025 / 16 : ℚ) < 0), hsqrt]
  simp only [pillLayout, hR, hmax, hs]
  decide

/-- C3, behaviour at the failing input: at width 100 and height 0 the
layout divides by zero with no guard, producing an Infinity radius and
diameter and a NaN vertical offset and transform origin — not a
skipped computation with the accent left hidden. -/
theorem pillLayout_100_0_degenerate :
    pillLayout (.fin 100) (.fin 0) = ⟨.inf, .inf, .nan, .nan⟩ := by
  decide

/-- C4: the linear falloff weight is exactly 1 at distance 0, exactly 0
at the radius, and monotonically decreasing (non-increasing) over every
pair of distances between 0 and the radius. -/
theorem calculateFalloff_linear_spec (radius : ℝ) (hr : 0 < radius) :
    calculateFalloff .linear radius 0 = 1 ∧
      calculateFalloff .linear radius radius = 0 ∧
      ∀ d1 d2 : ℝ, 0 ≤ d1 → d1 ≤ d2 → d2 ≤ radius →
        calculateFalloff .linear radius d2 ≤ calculateFalloff .linear radius d1 := by
  refine ⟨?_, ?_, ?_⟩
  · simp [calculateFalloff]
  · simp [calculateFalloff, div_self hr.ne']
  · intro d1 d2 _ h12 _
    simp only [calculateFalloff]
    refine min_le_min (max_le_max ?_ le_rfl) le_rfl
    exact sub_le_sub_left ((div_le_div_iff_of_pos_right hr).mpr h12) 1

/-- Witness for C4 at radius 50. -/
theorem calculateFalloff_linear_spec_witness :
    (0 : ℝ) < 50 ∧
      (calculateFalloff .linear 50 0 = 1 ∧
        calculateFalloff .linear 50 50 = 0 ∧
        ∀ d1 d2 : ℝ, 0 ≤ d1 → d1 ≤ d2 → d2 ≤ 50 →
          calculateFalloff .linear 50 d2 ≤ calculateFalloff .linear 50 d1) :=
  ⟨by norm_num, calculateFalloff_linear_spec 50 (by norm_num)⟩

/-- C5: the gaussian falloff weight is exactly 1 at distance 0 and
strictly positive at every finite distance at least 0, so the curve
itself forces no hard zero and has no discontinuity at the radius. -/
theorem calculateFalloff_gaussian_spec (radius : ℝ) (_hr : 0 < radius) :
    calculateFalloff .gaussian radius 0 = 1 ∧
      ∀ d : ℝ, 0 ≤ d → 0 < calculateFalloff .gaussian radius d := by
  constructor
  · simp [calculateFalloff]
  · intro d _
    simp only [calculateFalloff]
    exact Real.exp_pos _

/-- Witness for C5 at radius 50. -/
theorem calculateFalloff_gaussian_spec_witness :
    (0 : ℝ) < 50 ∧
      (calculateFalloff .gaussian 50 0 = 1 ∧
        ∀ d : ℝ, 0 ≤ d → 0 < calculateFalloff .gaussian 50 d) :=
  ⟨by norm_num, calculateFalloff_gaussian_spec 50 (by norm_num)⟩

/-- C6: parsing the from spec and formatting at weight 0 reproduces the
from spec string verbatim, and formatting at weight 1 with the to spec
at 800 reproduces the to spec string verbatim. -/
theorem parsedSettings_roundTrip :
    formatSettings (parsedSettings wghtFrom wghtTo) 0 = wghtFrom ∧
      formatSettings (parsedSettings wghtFrom wghtTo) 1 = wghtTo := by
  constructor
  · decide
  · decide

/-- First components survive jsMapSet unchanged when the key is already
present, and gain exactly the new key otherwise. -/
theorem keys_jsMapSet (m : List (String × Option ℚ)) (k : String) (v : Option ℚ) :
    (jsMapSet m k v).map Prod.fst =
      if m.any (fun p => p.1 == k) then m.map Prod.fst
      else m.map Prod.fst ++ [k] := by
  unfold jsMapSet
  split
  · rw [List.map_map]
    refine List.map_congr_left ?_
    intro p _
    dsimp only [Function.comp]
    split
    · next h => exact (eq_of_beq h).symm
    · rfl
  · simp

/-- Keys already present survive any jsMapSet. -/
theorem mem_keys_jsMapSet_of_mem (m : List (String × Option ℚ)) (k : String)
    (v : Option ℚ) (k0 : String) (h : k0 ∈ m.map Prod.fst) :
    k0 ∈ (jsMapSet m k v).map Prod.fst := by
  rw [keys_jsMapSet]
  split
  · exact h
  · exact List.mem_append_left _ h

/-- The key just set is present after jsMapSet. -/
theorem mem_keys_jsMapSet_self (m : List (String × Option ℚ)) (k : String)
    (v : Option ℚ) : k ∈ (jsMapSet m k v).map Prod.fst := by
  rw [keys_jsMapSet]
  split
  · next h =>
    obtain ⟨p, hp, hpk⟩ := List.any_eq_true.1 h
    exact eq_of_beq hpk ▸ List.mem_map_of_mem Prod.fst hp
  · exact List.mem_append_right _ (List.mem_singleton.2 rfl)

/-- Every key present after jsMapSet is the set key or an old key. -/
theorem mem_keys_of_mem_keys_jsMapSet (m : List (String × Option ℚ)) (k : String)
    (v : Option ℚ) (k0 : String) (h : k0 ∈ (jsMapSet m k v).map Prod.fst) :
    k0 = k ∨ k0 ∈ m.map Prod.fst := by
  rw [keys_jsMapSet] at h
  revert h
  split
  · exact fun h => Or.inr h
  · intro h
    rcases List.mem_append.1 h with h | h
    · exact Or.inr h
    · exact Or.inl (List.mem_singleton.1 h)

/-- Keys present in the accumulator survive the whole Map-building fold. -/
theorem mem_keys_fold_of_mem (pairs : List (String × Option ℚ)) :
    ∀ (m : List (String × Option ℚ)) (k0 : String), k0 ∈ m.map Prod.fst →
      k0 ∈ (pairs.foldl (fun m p => jsMapSet m p.1 p.2) m).map Prod.fst := by
  induction pairs with
  | nil => exact fun m k0 h => h
  | cons q qs ih =>
    intro m k0 h
    exact ih _ k0 (mem_keys_jsMapSet_of_mem m q.1 q.2 k0 h)

/-- Every pair key ends up among the keys of the Map-building fold. -/
theorem mem_keys_fold_of_mem_pairs (pairs : List (String × Option ℚ)) :
    ∀ (m : List (String × Option ℚ)) (k0 : String), k0 ∈ pairs.map Prod.fst →
      k0 ∈ (pairs.foldl (fun m p => jsMapSet m p.1 p.2) m).map Prod.fst := by
  induction pairs with
  | nil => intro m k0 h; cases h
  | cons q qs ih =>
    intro m k0 h
    rcases List.mem_cons.1 h with h | h
    · exact mem_keys_fold_of_mem qs _ k0
        (h ▸ mem_keys_jsMapSet_self m q.1 q.2)
    · exact ih _ k0 h

/-- Every key of the Map-building fold comes from the accumulator or
from the pair list. -/
theorem mem_of_mem_keys_fold (pairs : List (String × Option ℚ)) :
    ∀ (m : List (String × Option ℚ)) (k0 : String),
      k0 ∈ (pairs.foldl (fun m p => jsMapSet m p.1 p.2) m).map Prod.fst →
      k0 ∈ m.map Prod.fst ∨ k0 ∈ pairs.map Prod.fst := by
  induction pairs with
  | nil => exact fun m k0 h => Or.inl h
  | cons q qs ih =>
    intro m k0 h
    rcases ih _ k0 h with h | h
    · rcases mem_keys_of_mem_keys_jsMapSet m q.1 q.2 k0 h with h | h
      · exact Or.inr (h ▸ List.mem_cons_self _ _)
      · exact Or.inl h
    · exact Or.inr (List.mem_cons_of_mem _ h)

/-- Every pair key is a key of the built Map. -/
theorem mem_keys_jsMapOfList (pairs : List (String × Option ℚ)) (k0 : String)
    (h : k0 ∈ pairs.map Prod.fst) : k0 ∈ (jsMapOfList pairs).map Prod.fst :=
  mem_keys_fold_of_mem_pairs pairs [] k0 h

/-- Every key of the built Map is a pair key. -/
theorem mem_pairs_of_mem_keys_jsMapOfList (pairs : List (String × Option ℚ))
    (k0 : String) (h : k0 ∈ (jsMapOfList pairs).map Prod.fst) :
    k0 ∈ pairs.map Prod.fst := by
  rcases mem_of_mem_keys_fold pairs [] k0 h with h | h
  · cases h
  · exact h

/-- Looking up a key absent from the pair list gives none. -/
theorem jsMapGet_eq_none_of_not_mem (pairs : List (String × Option ℚ))
    (k : String) (h : k ∉ pairs.map Prod.fst) :
    jsMapGet (jsMapOfList pairs) k = none := by
  unfold jsMapGet
  rw [List.find?_eq_none.2, Option.map_none']
  intro x hx hbeq
  exact h (mem_pairs_of_mem_keys_jsMapOfList pairs k
    (eq_of_beq hbeq ▸ List.mem_map_of_mem Prod.fst hx))

/-- C7: every axis named in the from spec has an entry in the parsed
result; every entry of the result is an axis named in the from spec (so
axes present only in the to spec produce no entry); and an entry whose
axis is missing from the to spec keeps toValue equal to fromValue, so
no weight changes it. -/
theorem parsedSettings_axis_invariants (fromSpec toSpec : String) :
    (∀ n ∈ specAxisNames fromSpec,
        ∃ e ∈ parsedSettings fromSpec toSpec, e.axis = n) ∧
      (∀ e ∈ parsedSettings fromSpec toSpec, e.axis ∈ specAxisNames fromSpec) ∧
      (∀ e ∈ parsedSettings fromSpec toSpec,
        e.axis ∉ specAxisNames toSpec → e.toValue = e.fromValue) := by
  refine ⟨?_, ?_, ?_⟩
  · intro n hn
    have hkey : n ∈ (jsMapOfList (specPairs fromSpec)).map Prod.fst :=
      mem_keys_jsMapOfList _ n hn
    obtain ⟨p, hp, hpn⟩ := List.mem_map.1 hkey
    exact ⟨⟨p.1, p.2, (jsMapGet (parseSettings toSpec) p.1).getD p.2⟩,
      List.mem_map_of_mem _ hp, hpn⟩
  · intro e he
    obtain ⟨p, hp, rfl⟩ := List.mem_map.1 he
    exact mem_pairs_of_mem_keys_jsMapOfList _ _ (List.mem_map_of_mem Prod.fst hp)
  · intro e he hnot
    obtain ⟨p, hp, rfl⟩ := List.mem_map.1 he
    dsimp only at hnot
    show (jsMapGet (jsMapOfList (specPairs toSpec)) p.1).getD p.2 = p.2
    rw [jsMapGet_eq_none_of_not_mem _ _ hnot]
    rfl

/-- Witness for C7 at the concrete round-trip specs. -/
theorem parsedSettings_axis_invariants_witness :
    (∀ n ∈ specAxisNames twoAxisFrom,
        ∃ e ∈ parsedSettings twoAxisFrom wghtTo, e.axis = n) ∧
      (∀ e ∈ parsedSettings twoAxisFrom wghtTo,
        e.axis ∈ specAxisNames twoAxisFrom) ∧
      (∀ e ∈ parsedSettings twoAxisFrom wghtTo,
        e.axis ∉ specAxisNames wghtTo → e.toValue = e.fromValue) :=
  parsedSettings_axis_invariants twoAxisFrom wghtTo


/-- A split result is never the empty list of chunks. -/
theorem jsSplitChar_ne_nil (sep : Char) : ∀ l : List Char, jsSplitChar sep l ≠ [] := by
  intro l
  induction l with
  | nil => simp [jsSplitChar]
  | cons c cs ih =>
    simp only [jsSplitChar]
    split
    · simp
    · obtain ⟨w, ws, hw⟩ := List.exists_cons_of_ne_nil ih
      rw [hw]
      simp [List.modifyHead]

/-- Flattening the chunks of a split recovers the input without the
separator occurrences. -/
theorem jsSplitChar_flatten (sep : Char) :
    ∀ l : List Char,
      (jsSplitChar sep l).flatten = l.filter (fun c => !(c == sep)) := by
  intro l
  induction l with
  | nil => simp [jsSplitChar]
  | cons c cs ih =>
    simp only [jsSplitChar]
    cases hcs : c == sep with
    | true =>
      rw [if_pos rfl]
      simp [List.filter_cons, hcs, ih]
    | false =>
      rw [if_neg Bool.false_ne_true]
      obtain ⟨w, ws, hw⟩ := List.exists_cons_of_ne_nil (jsSplitChar_ne_nil sep cs)
      rw [List.filter_cons_of_pos (by simp [hcs]), ← ih, hw]
      simp [List.modifyHead]

/-- A split has one more chunk than the input has separators. -/
theorem jsSplitChar_length (sep : Char) :
    ∀ l : List Char, (jsSplitChar sep l).length = l.count sep + 1 := by
  intro l
  induction l with
  | nil => simp [jsSplitChar]
  | cons c cs ih =>
    simp only [jsSplitChar]
    cases hcs : c == sep with
    | true =>
      rw [if_pos rfl]
      simp [List.count_cons, hcs, ih]
    | false =>
      rw [if_neg Bool.false_ne_true]
      obtain ⟨w, ws, hw⟩ := List.exists_cons_of_ne_nil (jsSplitChar_ne_nil sep cs)
      have hlen := ih
      rw [hw] at hlen
      rw [hw]
      simp only [List.modifyHead, List.length_cons] at hlen ⊢
      simp [List.count_cons, hcs]
      omega

/-- Glyph tokens of a concatenation split at the running index. -/
theorem glyphTokens_append (w1 w2 : List Char) :
    ∀ i : ℕ, glyphTokens i (w1 ++ w2) =
      glyphTokens i w1 ++ glyphTokens (i + w1.length) w2 := by
  induction w1 with
  | nil => intro i; simp [glyphTokens]
  | cons c cs ih =>
    intro i
    simp only [List.cons_append, glyphTokens, List.length_cons, List.nil_append,
      List.append_eq]
    rw [ih (i + 1), show i + (cs.length + 1) = i + 1 + cs.length from by omega]

/-- Every glyph token satisfies the glyph predicate. -/
theorem glyphTokens_filter (w : List Char) :
    ∀ i : ℕ, (glyphTokens i w).filter isGlyphTok = glyphTokens i w := by
  induction w with
  | nil => intro i; rfl
  | cons c cs ih =>
    intro i
    simp [glyphTokens, List.filter_cons, isGlyphTok, ih]

/-- Glyph tokens contain no separator. -/
theorem glyphTokens_count (w : List Char) :
    ∀ i : ℕ, (glyphTokens i w).count Token.separator = 0 := by
  induction w with
  | nil => intro i; rfl
  | cons c cs ih =>
    intro i
    simp [glyphTokens, List.count_cons, ih, beq_iff_eq]

/-- The glyph tokens of the word markup are the glyph tokens of the
flattened words, consecutively indexed. -/
theorem renderWords_filter :
    ∀ (ws : List (List Char)) (i : ℕ),
      (renderWords i ws).filter isGlyphTok = glyphTokens i ws.flatten := by
  intro ws
  induction ws with
  | nil => intro i; rfl
  | cons w ws ih =>
    intro i
    cases ws with
    | nil =>
      simp only [renderWords, List.flatten_cons, List.flatten_nil,
        List.append_nil]
      exact glyphTokens_filter w i
    | cons w2 ws2 =>
      simp only [renderWords, List.flatten_cons]
      rw [List.filter_append, List.filter_cons_of_neg (by simp [isGlyphTok]),
        glyphTokens_filter, ih (i + w.length), ← List.flatten_cons,
        glyphTokens_append]

/-- The word markup emits one separator per word boundary. -/
theorem renderWords_count :
    ∀ (ws : List (List Char)) (i : ℕ),
      (renderWords i ws).count Token.separator = ws.length - 1 := by
  intro ws
  induction ws with
  | nil => intro i; rfl
  | cons w ws ih =>
    intro i
    cases ws with
    | nil => simp [renderWords, glyphTokens_count]
    | cons w2 ws2 =>
      simp only [renderWords, List.count_append, List.count_cons,
        glyphTokens_count, ih (i + w.length), List.length_cons,
        beq_self_eq_true, if_true]
      omega

/-- C8 counterexample: a run of two spaces produces two separator
spans, not one; and a tab character — whitespace that is not a space —
is assigned glyph index 1 and rendered as an animated glyph. -/
theorem renderLabel_whitespace_counterexample :
    (renderLabel ['a', ' ', ' ', 'b']).count Token.separator = 2 ∧
      renderLabel ['a', Char.ofNat 9, 'b'] =
        [.glyph 0 'a', .glyph 1 (Char.ofNat 9), .glyph 2 'b'] := by
  exact ⟨by decide, by decide⟩

/-- C8 amended: label splitting treats each single space character (and
only the space character) as a word separator; every separator is the
literal non-breaking-space span, carrying no glyph index and no
animation ref, and glyph indices run consecutively from 0 over the
non-space characters; a run of k spaces yields k separators. -/
theorem renderLabel_space_splitting (label : List Char) :
    (renderLabel label).filter isGlyphTok =
      glyphTokens 0 (label.filter (fun c => !(c == ' '))) ∧
      (renderLabel label).count Token.separator = label.count ' ' := by
  constructor
  · rw [renderLabel, renderWords_filter, jsSplitChar_flatten]
  · rw [renderLabel, renderWords_count, jsSplitChar_length]
    omega

/-- Witness for C8 at a concrete two-word label. -/
theorem renderLabel_space_splitting_witness :
    (renderLabel ['h', 'i', ' ', 'y', 'o', 'u']).filter isGlyphTok =
      glyphTokens 0 (['h', 'i', ' ', 'y', 'o', 'u'].filter (fun c => !(c == ' '))) ∧
      (renderLabel ['h', 'i', ' ', 'y', 'o', 'u']).count Token.separator =
        ['h', 'i', ' ', 'y', 'o', 'u'].count ' ' :=
  renderLabel_space_splitting ['h', 'i', ' ', 'y', 'o', 'u']

/-- One step after teardown changes no style write and re-arms
nothing. -/
theorem stepEngine_torn (s : EngineState) (e : EngineEvent)
    (h1 : s.pendingFrame = none) (h2 : s.listenersOn = false) :
    (stepEngine s e).styleWrites = s.styleWrites ∧
      (stepEngine s e).pendingFrame = none ∧
      (stepEngine s e).listenersOn = false := by
  cases e <;> simp [stepEngine, h1, h2]

/-- A whole event run after teardown changes no style write and re-arms
nothing. -/
theorem runEngine_torn :
    ∀ (es : List EngineEvent) (s : EngineState), s.pendingFrame = none →
      s.listenersOn = false →
      (runEngine s es).styleWrites = s.styleWrites ∧
        (runEngine s es).pendingFrame = none ∧
        (runEngine s es).listenersOn = false := by
  intro es
  induction es with
  | nil => exact fun s h1 h2 => ⟨rfl, h1, h2⟩
  | cons e es ih =>
    intro s h1 h2
    obtain ⟨hw, hp, hl⟩ := stepEngine_torn s e h1 h2
    obtain ⟨hw2, hp2, hl2⟩ := ih (stepEngine s e) hp hl
    exact ⟨hw2.trans hw, hp2, hl2⟩

/-- C9: after the unmount cleanup the pending animation-frame callback
is cancelled and both pointer listeners are deregistered, and they stay
so under any further event delivery — in particular the style-write
counter never moves again, even if pointer-move and frame events keep
arriving. -/
theorem engine_teardown_no_mutations (s : EngineState) (es : List EngineEvent) :
    (runEngine (stepEngine s .unmount) es).styleWrites = s.styleWrites ∧
      (runEngine (stepEngine s .unmount) es).pendingFrame = none ∧
      (runEngine (stepEngine s .unmount) es).listenersOn = false := by
  obtain ⟨hw, hp, hl⟩ := runEngine_torn es (stepEngine s .unmount) rfl rfl
  exact ⟨hw, hp, hl⟩

/-- Witness for C9: a mounted instance with a pending frame receives
unmount and then a pointer move, a frame fire and a touch move; its
five recorded style writes stay five. -/
theorem engine_teardown_no_mutations_witness :
    (runEngine (stepEngine ⟨some 7, 8, true, 0, 0, 5⟩ .unmount)
        [.mouseMove 3 4, .frameFire, .touchMove 1 2]).styleWrites = 5 ∧
      (runEngine (stepEngine ⟨some 7, 8, true, 0, 0, 5⟩ .unmount)
        [.mouseMove 3 4, .frameFire, .touchMove 1 2]).pendingFrame = none ∧
      (runEngine (stepEngine ⟨some 7, 8, true, 0, 0, 5⟩ .unmount)
        [.mouseMove 3 4, .frameFire, .touchMove 1 2]).listenersOn = false :=
  engine_teardown_no_mutations ⟨some 7, 8, true, 0, 0, 5⟩
    [.mouseMove 3 4, .frameFire, .touchMove 1 2]

/-- Quote characters never survive stripQuotes. -/
theorem stripQuotes_no_quotes (s : String) :
    squoteChar ∉ (stripQuotes s).data ∧ dquoteChar ∉ (stripQuotes s).data := by
  constructor
  · intro hmem
    have h := (List.mem_filter.1 hmem).2
    simp at h
  · intro hmem
    have h := (List.mem_filter.1 hmem).2
    simp at h

/-- C10: every axis entry the engine emits is formatted as the axis
name wrapped in single quotes, a space and the value, the entries
joined by comma-space; the parsed axis name never contains a quote
character whatever quoting the input spec used, and single, double or
absent quotes around the input name all produce the same single-quoted
output. -/
theorem formatSettings_quote_normalisation :
    (∀ fromSpec toSpec : String, ∀ e ∈ parsedSettings fromSpec toSpec,
        squoteChar ∉ e.axis.data ∧ dquoteChar ∉ e.axis.data) ∧
      formatSettings (parsedSettings wghtFromDq wghtTo) 0 = wghtFrom ∧
      formatSettings (parsedSettings wghtFromBare wghtTo) 0 = wghtFrom ∧
      formatSettings (parsedSettings twoAxisFrom wghtTo) 0 = twoAxisFrom := by
  refine ⟨?_, by decide, by decide, by decide⟩
  intro f t e he
  obtain ⟨p, hp, rfl⟩ := List.mem_map.1 he
  dsimp only
  have hkey : p.1 ∈ (specPairs f).map Prod.fst :=
    mem_pairs_of_mem_keys_jsMapOfList _ _ (List.mem_map_of_mem Prod.fst hp)
  obtain ⟨q, hq, hq1⟩ := List.mem_map.1 hkey
  obtain ⟨t0, ht0, rfl⟩ := List.mem_map.1 hq
  rw [← hq1]
  exact stripQuotes_no_quotes _
